import Mathlib

/-!
Verification development for the montage-core expense-splitting backend.

Shallow embedding of the Expenditure model (models/Expenditure.ts), the
split-sum pre-save validator, the create / update / mark-paid route handlers
and the settlement-summary aggregation pipeline (routes/expenditures.ts).

Monetary amounts are modelled as exact rationals; Mongo ObjectIds and dates
are modelled as natural numbers.  The store is the list of persisted
Expenditure documents, in insertion order (`findOne` returns the first
match, as Mongo does on the natural order).
-/

namespace Montage

/-- Opaque user identity (Mongo ObjectId). -/
abbrev UserId := Nat

/-- Opaque expenditure identity (Mongo ObjectId). -/
abbrev ExpId := Nat

/-- One participant's obligation inside an Expenditure (splitSchema). -/
structure Split where
  user : UserId
  amount : ℚ
  paid : Bool
  settledAt : Option Nat
deriving Repr, DecidableEq

/-- One persisted Expenditure document (expenditureSchema). -/
structure Expenditure where
  id : ExpId
  user : UserId
  amount : ℚ
  category : String
  description : String
  date : Nat
  paymentMethod : String
  tags : List String
  location : Option String
  splits : List Split
  totalAmount : ℚ
  paidBy : UserId
  isSettled : Bool
deriving Repr, DecidableEq

/-- Errors a save can raise.  Mongoose structural validation produces an
error named `ValidationError` (caught by the handlers and turned into a 400);
the split-sum pre-save hook calls `next(new Error(...))`, a plain `Error`
whose `name` is `Error`, modelled by `otherError`. -/
inductive AppError where
  | validationError (details : List (String × String))
  | otherError (message : String)
deriving Repr, DecidableEq

/-- The `message` carried by the error object. -/
def AppError.message : AppError → String
  | AppError.validationError _ => "Validation failed"
  | AppError.otherError m => m

/-- `this.splits.reduce((sum, split) => sum + split.amount, 0)`. -/
def splitsTotal (splits : List Split) : ℚ :=
  splits.foldl (fun sum s => sum + s.amount) 0

/-- The `expenditureSchema.pre('save')` hook: when splits are present and
`Math.abs(totalSplitAmount - this.totalAmount) > 0.01`, abort the save with
a plain `Error('Split amounts must add up to the total amount')`. -/
def preSaveHook (e : Expenditure) : Except AppError Unit :=
  if e.splits.length > 0 then
    if |splitsTotal e.splits - e.totalAmount| > 1/100 then
      Except.error (AppError.otherError "Split amounts must add up to the total amount")
    else
      Except.ok ()
  else
    Except.ok ()

/-- The persistence layer: the list of saved Expenditures in insertion
order. -/
abbrev Store := List Expenditure

/-- `document.save()`: run the pre-save hook; on success persist the
document (replace the stored document with the same id, or append a new
one).  On error nothing is persisted. -/
def Store.save (store : Store) (e : Expenditure) : Except AppError Store :=
  match preSaveHook e with
  | Except.error err => Except.error err
  | Except.ok () =>
      if store.any (fun x => x.id == e.id) then
        Except.ok (store.map (fun x => if x.id == e.id then e else x))
      else
        Except.ok (store ++ [e])

/-- The HTTP outcome of a route handler. -/
inductive HandlerResult where
  | created (e : Expenditure)
  | ok (e : Expenditure)
  | invalidUpdates
  | validationFailed (details : List (String × String))
  | notFound (message : String)
  | serverError (message : String)
deriving Repr, DecidableEq

/-- The HTTP status each outcome is sent with.  `serverError` is the app.ts
error handler: `err.status || 500` for a plain `Error` is 500. -/
def HandlerResult.statusCode : HandlerResult → Nat
  | HandlerResult.created _ => 201
  | HandlerResult.ok _ => 200
  | HandlerResult.invalidUpdates => 400
  | HandlerResult.validationFailed _ => 400
  | HandlerResult.notFound _ => 404
  | HandlerResult.serverError _ => 500

/-- The body of `POST /expenditures`.  `createExpenditure` spreads the whole
body (`...expenditureData`) into `Expenditure.create`, so every schema path
can be supplied, `isSettled` included; absent fields take schema defaults. -/
structure CreateBody where
  amount : ℚ
  category : String
  description : String
  date : Nat
  paymentMethod : String
  tags : List String
  location : Option String
  totalAmount : Option ℚ
  splits : Option (List Split)
  isSettled : Option Bool
deriving Repr, DecidableEq

/-- `totalAmount || expenditureData.amount`: JavaScript `||` also falls back
to `amount` when `totalAmount` is present but `0` (falsy). -/
def resolvedTotalAmount (b : CreateBody) : ℚ :=
  match b.totalAmount with
  | some t => if t = 0 then b.amount else t
  | none => b.amount

/-- The document handed to `Expenditure.create` by `createExpenditure`:
`user` and `paidBy` are the authenticated caller, `splits || []`, and
`isSettled` defaults to `false` (schema default) when the body omits it. -/
def buildExpenditure (caller : UserId) (fid : ExpId) (b : CreateBody) : Expenditure :=
  { id := fid
    user := caller
    amount := b.amount
    category := b.category
    description := b.description
    date := b.date
    paymentMethod := b.paymentMethod
    tags := b.tags
    location := b.location
    splits := b.splits.getD []
    totalAmount := resolvedTotalAmount b
    paidBy := caller
    isSettled := b.isSettled.getD false }

/-- `createExpenditure` (routes/expenditures.ts): create and save; on a
mongoose `ValidationError` answer 400 with field messages; any other error
falls through `next(error)` to the app error handler (500). -/
def createExpenditure (store : Store) (caller : UserId) (fid : ExpId)
    (b : CreateBody) : HandlerResult × Store :=
  let e := buildExpenditure caller fid b
  match Store.save store e with
  | Except.ok store2 => (HandlerResult.created e, store2)
  | Except.error (AppError.validationError d) => (HandlerResult.validationFailed d, store)
  | Except.error (AppError.otherError m) => (HandlerResult.serverError m, store)

/-- A JSON value that `PATCH /expenditures/:id` can carry for one field. -/
inductive FieldValue where
  | num (q : ℚ)
  | nat (n : Nat)
  | str (s : String)
  | strList (l : List String)
  | boolean (b : Bool)
  | uid (u : UserId)
  | optStr (s : Option String)
  | splitList (l : List Split)
deriving Repr, DecidableEq

/-- The whitelist in `updateExpenditure`. -/
def allowedUpdates : List String :=
  ["amount", "category", "description", "date", "paymentMethod", "tags", "location"]

/-- `(expenditure as any)[update] = req.body[update]`: assign the body value
to the named schema path.  Any schema path can be assigned, not only the
whitelisted seven; a value of the wrong shape fails mongoose casting, out of
scope here. -/
def applyUpdate (e : Expenditure) (kv : String × FieldValue) : Expenditure :=
  if kv.1 = "amount" then
    match kv.2 with | FieldValue.num q => { e with amount := q } | _ => e
  else if kv.1 = "category" then
    match kv.2 with | FieldValue.str s => { e with category := s } | _ => e
  else if kv.1 = "description" then
    match kv.2 with | FieldValue.str s => { e with description := s } | _ => e
  else if kv.1 = "date" then
    match kv.2 with | FieldValue.nat n => { e with date := n } | _ => e
  else if kv.1 = "paymentMethod" then
    match kv.2 with | FieldValue.str s => { e with paymentMethod := s } | _ => e
  else if kv.1 = "tags" then
    match kv.2 with | FieldValue.strList l => { e with tags := l } | _ => e
  else if kv.1 = "location" then
    match kv.2 with | FieldValue.optStr s => { e with location := s } | _ => e
  else if kv.1 = "splits" then
    match kv.2 with | FieldValue.splitList l => { e with splits := l } | _ => e
  else if kv.1 = "totalAmount" then
    match kv.2 with | FieldValue.num q => { e with totalAmount := q } | _ => e
  else if kv.1 = "paidBy" then
    match kv.2 with | FieldValue.uid u => { e with paidBy := u } | _ => e
  else if kv.1 = "user" then
    match kv.2 with | FieldValue.uid u => { e with user := u } | _ => e
  else if kv.1 = "isSettled" then
    match kv.2 with | FieldValue.boolean b => { e with isSettled := b } | _ => e
  else e

/-- `updateExpenditure` (routes/expenditures.ts): reject any body with a key
outside the whitelist with 400 `Invalid updates`; otherwise find the
caller-owned document, assign the fields, save. -/
def updateExpenditure (store : Store) (caller : UserId) (eid : ExpId)
    (body : List (String × FieldValue)) : HandlerResult × Store :=
  let updates := body.map Prod.fst
  let isValidOperation := updates.all (fun u => allowedUpdates.contains u)
  if isValidOperation then
    match store.find? (fun e => e.id == eid && e.user == caller) with
    | none => (HandlerResult.notFound "Expenditure not found", store)
    | some e =>
        let e2 := body.foldl applyUpdate e
        match Store.save store e2 with
        | Except.ok store2 => (HandlerResult.ok e2, store2)
        | Except.error (AppError.validationError d) =>
            (HandlerResult.validationFailed d, store)
        | Except.error (AppError.otherError m) => (HandlerResult.serverError m, store)
  else
    (HandlerResult.invalidUpdates, store)

/-- The in-place mutation in `markSplitAsPaid`: `splits.find(...)` returns a
reference to the first split of the caller, then `split.paid = true;
split.settledAt = new Date()` mutates that split, whatever its prior state. -/
def markUserSplit : List Split → UserId → Nat → List Split
  | [], _, _ => []
  | s :: rest, caller, now =>
      if s.user == caller then
        { s with paid := true, settledAt := some now } :: rest
      else
        s :: markUserSplit rest caller now

/-- `markSplitAsPaid` (routes/expenditures.ts): `findOne({_id, 'splits.user':
caller, isSettled: false})`; 404 when nothing matches; mark the caller's
split paid with a fresh `settledAt`; set `isSettled` when every split is now
paid; save. -/
def markSplitAsPaid (store : Store) (caller : UserId) (expenditureId : ExpId)
    (now : Nat) : HandlerResult × Store :=
  match store.find? (fun e =>
      e.id == expenditureId && e.splits.any (fun s => s.user == caller)
        && !e.isSettled) with
  | none => (HandlerResult.notFound "Expenditure not found or already settled", store)
  | some e =>
      match e.splits.find? (fun s => s.user == caller) with
      | none => (HandlerResult.notFound "Split not found for this user", store)
      | some _ =>
          let splits2 := markUserSplit e.splits caller now
          let allPaid := splits2.all (fun s => s.paid)
          let e2 := { e with
            splits := splits2
            isSettled := if allPaid then true else e.isSettled }
          match Store.save store e2 with
          | Except.ok store2 => (HandlerResult.ok e2, store2)
          | Except.error err => (HandlerResult.serverError err.message, store)

/-- One entry of a settlement row's `transactions` array. -/
structure Txn where
  id : ExpId
  description : String
  amount : ℚ
  date : Nat
deriving Repr, DecidableEq

/-- One `$group` output row of the settlement pipeline.  The `$lookup` /
`$unwind` stage only attaches the payer's display fields (assumed present),
so `userDetails` is not modelled. -/
structure SettlementRow where
  counterparty : Option UserId
  totalOwed : ℚ
  transactions : List Txn
deriving Repr, DecidableEq

/-- The pipeline's `$match` stage: `isSettled: false` and the caller is the
payer or a split participant. -/
def settlementMatch (u : UserId) (e : Expenditure) : Bool :=
  !e.isSettled && (e.paidBy == u || e.splits.any (fun s => s.user == u))

/-- The `$group` key: when the caller paid, `$arrayElemAt ['$splits.user', 0]`
(the first split's user, `none` when there is no split); otherwise the payer. -/
def rowKey (u : UserId) (e : Expenditure) : Option UserId :=
  if e.paidBy == u then (e.splits.head?).map (fun s => s.user) else some e.paidBy

/-- The signed amount one matched expenditure contributes: when the caller
paid, `$arrayElemAt ['$splits.amount', 0]` (the first split's amount, with no
condition on its `paid` flag or its user); otherwise minus the amount of the
caller's first split (`$filter` on `$$split.user`, element 0, times -1).
A missing value contributes 0 to `$sum`. -/
def rowAmount (u : UserId) (e : Expenditure) : ℚ :=
  if e.paidBy == u then
    (((e.splits.head?).map (fun s => s.amount)).getD 0)
  else
    ((((e.splits.find? (fun s => s.user == u)).map (fun s => s.amount)).getD 0) * (-1))

/-- The `$push` entry for one matched expenditure; its `amount` expression in
the pipeline is the same `$cond` as the `totalOwed` summand. -/
def mkTxn (u : UserId) (e : Expenditure) : Txn :=
  { id := e.id, description := e.description, amount := rowAmount u e, date := e.date }

/-- Accumulate one matched expenditure into the `$group` accumulator rows:
add to the existing row with the same key, or start a new one. -/
def addRow : List SettlementRow → Option UserId → ℚ → Txn → List SettlementRow
  | [], k, a, t => [{ counterparty := k, totalOwed := a, transactions := [t] }]
  | r :: rs, k, a, t =>
      if r.counterparty = k then
        { r with totalOwed := r.totalOwed + a,
                 transactions := r.transactions ++ [t] } :: rs
      else
        r :: addRow rs k a t

/-- The `$group` stage over the matched expenditures. -/
def groupRows (u : UserId) (es : List Expenditure) : List SettlementRow :=
  es.foldl (fun acc e => addRow acc (rowKey u e) (rowAmount u e) (mkTxn u e)) []

/-- The `$sort {totalOwed: -1}` order: descending by net amount. -/
def rowGe (a b : SettlementRow) : Prop := b.totalOwed ≤ a.totalOwed

instance : DecidableRel rowGe :=
  fun a b => inferInstanceAs (Decidable (b.totalOwed ≤ a.totalOwed))

instance : IsTotal SettlementRow rowGe :=
  ⟨fun a b => (le_total b.totalOwed a.totalOwed).imp id id⟩

instance : IsTrans SettlementRow rowGe :=
  ⟨fun _ _ _ hab hbc => le_trans hbc hab⟩

/-- The response of `GET /expenditures/settlements`. -/
structure SettlementSummary where
  settlements : List SettlementRow
  totalToReceive : ℚ
  totalToPay : ℚ
deriving Repr, DecidableEq

/-- `getSettlementSummary` (routes/expenditures.ts): match the caller's
unsettled expenditures, group per counterparty key, drop rows whose
`totalOwed` is 0 (`$match {totalOwed: {$ne: 0}}`), sort descending, and
compute the two scalar summaries from the resulting list. -/
def getSettlementSummary (store : Store) (u : UserId) : SettlementSummary :=
  let matched := store.filter (settlementMatch u)
  let grouped := groupRows u matched
  let nonzero := grouped.filter (fun r => !(r.totalOwed == 0))
  let sorted := List.insertionSort rowGe nonzero
  { settlements := sorted
    totalToReceive :=
      ((sorted.filter (fun r => decide (0 < r.totalOwed))).map
        (fun r => r.totalOwed)).sum
    totalToPay :=
      ((sorted.filter (fun r => decide (r.totalOwed < 0))).map
        (fun r => |r.totalOwed|)).sum }

/-- Total owed to/by one counterparty key across a row list. -/
def rowsTotal (x : Option UserId) (rows : List SettlementRow) : ℚ :=
  ((rows.filter (fun r => r.counterparty == x)).map (fun r => r.totalOwed)).sum

/-! ### Concrete instances used as test vectors -/

/-- A stored bill of 100 paid by user 1, fully owed by user 2, unpaid. -/
def exOneSplitUnpaid : Expenditure :=
  { id := 1, user := 1, amount := 100, category := "food", description := "dinner"
    date := 0, paymentMethod := "cash", tags := [], location := none
    splits := [⟨2, 100, false, none⟩], totalAmount := 100, paidBy := 1
    isSettled := false }

/-- A stored bill of 100 paid by user 1 split between user 2 (already paid,
timestamp 5) and user 3 (unpaid), hence not yet settled. -/
def exTwoSplit : Expenditure :=
  { id := 1, user := 1, amount := 100, category := "food", description := "shared cab"
    date := 0, paymentMethod := "cash", tags := [], location := none
    splits := [⟨2, 60, true, some 5⟩, ⟨3, 40, false, none⟩], totalAmount := 100
    paidBy := 1, isSettled := false }

/-- `exTwoSplit` after user 2 re-marks their already-paid split at time 9. -/
def exTwoSplitRemarked : Expenditure :=
  { exTwoSplit with splits := [⟨2, 60, true, some 9⟩, ⟨3, 40, false, none⟩] }

/-- `exOneSplitUnpaid` after user 2 marks their split at time 7. -/
def exOneSplitMarked : Expenditure :=
  { exOneSplitUnpaid with splits := [⟨2, 100, true, some 7⟩], isSettled := true }

/-- A stored unsettled bill paid by user 1 whose only split, user 2's 60,
is already paid. -/
def exPaidSplit : Expenditure :=
  { id := 1, user := 1, amount := 60, category := "food", description := "dinner"
    date := 0, paymentMethod := "cash", tags := [], location := none
    splits := [⟨2, 60, true, some 5⟩], totalAmount := 60, paidBy := 1
    isSettled := false }

/-- A create body whose splits sum to 70 against a total of 100. -/
def exMismatchBody : CreateBody :=
  { amount := 100, category := "food", description := "team lunch", date := 3
    paymentMethod := "cash", tags := [], location := none
    totalAmount := some 100, splits := some [⟨2, 70, false, none⟩]
    isSettled := none }

/-- A create body whose only split is already marked paid; `isSettled` is
not supplied. -/
def exAllPaidBody : CreateBody :=
  { amount := 100, category := "food", description := "prepaid dinner", date := 2
    paymentMethod := "cash", tags := [], location := none
    totalAmount := some 100, splits := some [⟨2, 100, true, some 1⟩]
    isSettled := none }

/-- A create body whose split sum misses the total by exactly 0.01. -/
def exBoundaryBody : CreateBody :=
  { amount := 1/100, category := "other", description := "rounding", date := 0
    paymentMethod := "cash", tags := [], location := none
    totalAmount := some (1/100), splits := some [⟨2, 0, false, none⟩]
    isSettled := none }

/-- A create body that supplies `isSettled: true` itself. -/
def exSettledBody : CreateBody :=
  { amount := 50, category := "food", description := "presettled", date := 0
    paymentMethod := "cash", tags := [], location := none
    totalAmount := some 50, splits := some [⟨2, 50, true, some 4⟩]
    isSettled := some true }

/-! ### Helper lemmas -/

/-- The pre-save hook passes exactly when the split list is empty or the
split sum is within 0.01 of the total. -/
theorem preSaveHook_ok_iff (e : Expenditure) :
    preSaveHook e = Except.ok () ↔
      (e.splits = [] ∨ |splitsTotal e.splits - e.totalAmount| ≤ 1/100) := by
  unfold preSaveHook
  by_cases hsp : e.splits.length > 0
  · by_cases habs : |splitsTotal e.splits - e.totalAmount| > 1/100
    · simp only [hsp, if_pos, habs]
      simp only [reduceCtorEq, false_iff]
      rintro (hnil | hle)
      · rw [hnil] at hsp; simp at hsp
      · exact absurd hle (not_le.mpr habs)
    · simp only [hsp, if_pos, habs, if_neg, if_false]
      simp only [true_iff]
      exact Or.inr (not_lt.mp habs)
  · have hnil : e.splits = [] := List.length_eq_zero.mp (Nat.eq_zero_of_not_pos hsp)
    simp [hsp, hnil]

/-- A save succeeds exactly when the pre-save hook passes. -/
theorem save_ok_iff (store : Store) (e : Expenditure) :
    (∃ s2, Store.save store e = Except.ok s2) ↔ preSaveHook e = Except.ok () := by
  unfold Store.save
  rcases h : preSaveHook e with err | u
  · simp [h]
  · cases u
    by_cases hc : store.any (fun x => x.id == e.id) <;> simp [h, hc]

/-- On a failed save nothing is persisted and the handler keeps the old
store; on success the result is the built document. -/
theorem createExpenditure_cases (store : Store) (caller : UserId) (fid : ExpId)
    (b : CreateBody) (r : HandlerResult) (s2 : Store)
    (h : createExpenditure store caller fid b = (r, s2)) :
    (∃ st, Store.save store (buildExpenditure caller fid b) = Except.ok st ∧
      r = HandlerResult.created (buildExpenditure caller fid b) ∧ s2 = st) ∨
    ((∀ st, Store.save store (buildExpenditure caller fid b) ≠ Except.ok st) ∧
      (∀ x, r ≠ HandlerResult.created x) ∧ s2 = store) := by
  simp only [createExpenditure] at h
  rcases hs : Store.save store (buildExpenditure caller fid b) with err | st
  · rcases err with d | m <;>
      · rw [hs] at h
        obtain ⟨h1, h2⟩ := Prod.mk.injEq .. ▸ h
        exact Or.inr ⟨by simp [hs], by simp [← h1], h2.symm⟩
  · rw [hs] at h
    obtain ⟨h1, h2⟩ := Prod.mk.injEq .. ▸ h
    exact Or.inl ⟨st, rfl, h1.symm, h2.symm⟩

/-- Marking preserves non-emptiness of the split list. -/
theorem markUserSplit_ne_nil (l : List Split) (c : UserId) (n : Nat) (h : l ≠ []) :
    markUserSplit l c n ≠ [] := by
  cases l with
  | nil => exact absurd rfl h
  | cons s rest =>
      unfold markUserSplit
      by_cases hs : s.user == c <;> simp [hs]

/-- After marking, the caller's first split is paid with the fresh
timestamp, whatever its previous state. -/
theorem markUserSplit_find (l : List Split) (c : UserId) (n : Nat)
    (h : l.any (fun s => s.user == c) = true) :
    ∃ s0, l.find? (fun s => s.user == c) = some s0 ∧
      (markUserSplit l c n).find? (fun s => s.user == c)
        = some { s0 with paid := true, settledAt := some n } := by
  induction l with
  | nil => simp at h
  | cons s rest ih =>
      by_cases hs : s.user = c
      · refine ⟨s, ?_, ?_⟩
        · simp [List.find?, hs]
        · unfold markUserSplit
          simp [hs, List.find?]
      · have hrest : rest.any (fun s => s.user == c) = true := by
          simpa [List.any_cons, hs] using h
        obtain ⟨s0, h1, h2⟩ := ih hrest
        refine ⟨s0, ?_, ?_⟩
        · simpa [List.find?_cons, hs] using h1
        · unfold markUserSplit
          simpa [hs, List.find?_cons] using h2

/-- Anatomy of a successful mark-paid: the store held a first matching
document with a split of the caller and `isSettled` false, and the response
document is that document with the caller's split marked and `isSettled`
recomputed. -/
theorem markSplitAsPaid_ok (store : Store) (caller : UserId) (eid : ExpId)
    (now : Nat) (e2 : Expenditure) (s2 : Store)
    (h : markSplitAsPaid store caller eid now = (HandlerResult.ok e2, s2)) :
    ∃ e, e ∈ store ∧ e.id = eid
      ∧ e.splits.any (fun s => s.user == caller) = true ∧ e.isSettled = false
      ∧ e2 = { e with
          splits := markUserSplit e.splits caller now
          isSettled :=
            if (markUserSplit e.splits caller now).all (fun s => s.paid) then true
            else e.isSettled } := by
  unfold markSplitAsPaid at h
  rcases hf : store.find? (fun e =>
      e.id == eid && e.splits.any (fun s => s.user == caller) && !e.isSettled)
    with _ | e
  · rw [hf] at h
    exact absurd (congrArg Prod.fst h) (by simp)
  · have hp := List.find?_some hf
    have hmem := List.mem_of_find?_eq_some hf
    simp only [Bool.and_eq_true, beq_iff_eq, Bool.not_eq_true'] at hp
    obtain ⟨⟨hid, hany⟩, hset⟩ := hp
    simp only [hf] at h
    rcases hg : e.splits.find? (fun s => s.user == caller) with _ | s0
    · rw [List.find?_eq_none] at hg
      rw [List.any_eq_true] at hany
      obtain ⟨s, hsmem, hsc⟩ := hany
      exact absurd hsc (by simpa using hg s hsmem)
    · simp only [hg] at h
      rcases hs : Store.save store { e with
          splits := markUserSplit e.splits caller now
          isSettled :=
            if (markUserSplit e.splits caller now).all (fun s => s.paid) then true
            else e.isSettled } with err | st
      · simp only [hs] at h
        exact absurd (congrArg Prod.fst h) (by simp)
      · simp only [hs] at h
        obtain ⟨h1, _⟩ := Prod.mk.injEq .. ▸ h
        exact ⟨e, hmem, hid, hany, hset, by injection h1 with h1e; exact h1e.symm⟩

/-- When no stored document matches the `findOne` filter, mark-paid answers
404 and leaves the store untouched. -/
theorem markSplitAsPaid_notFound (store : Store) (caller : UserId) (eid : ExpId)
    (now : Nat)
    (h : ∀ e, e ∈ store →
      ¬(e.id = eid ∧ (∃ s, s ∈ e.splits ∧ s.user = caller) ∧ e.isSettled = false)) :
    markSplitAsPaid store caller eid now
      = (HandlerResult.notFound "Expenditure not found or already settled", store) := by
  unfold markSplitAsPaid
  have hf : store.find? (fun e =>
      e.id == eid && e.splits.any (fun s => s.user == caller) && !e.isSettled) = none := by
    rw [List.find?_eq_none]
    intro e he hp
    simp only [Bool.and_eq_true, beq_iff_eq, Bool.not_eq_true', List.any_eq_true,
      beq_iff_eq] at hp
    obtain ⟨⟨hid, s, hsmem, hsc⟩, hset⟩ := hp
    exact h e he ⟨hid, ⟨s, hsmem, hsc⟩, hset⟩
  rw [hf]

theorem rowsTotal_cons (x : Option UserId) (r : SettlementRow)
    (l : List SettlementRow) :
    rowsTotal x (r :: l)
      = (if r.counterparty = x then r.totalOwed else 0) + rowsTotal x l := by
  unfold rowsTotal
  by_cases h : r.counterparty = x <;> simp [List.filter_cons, h]

theorem addRow_rowsTotal (rows : List SettlementRow) (k : Option UserId) (a : ℚ)
    (t : Txn) (x : Option UserId) :
    rowsTotal x (addRow rows k a t)
      = rowsTotal x rows + (if k = x then a else 0) := by
  induction rows with
  | nil =>
      unfold addRow
      rw [rowsTotal_cons]
      by_cases h : k = x <;> simp [rowsTotal, h]
  | cons r rs ih =>
      unfold addRow
      by_cases hr : r.counterparty = k
      · rw [if_pos hr, rowsTotal_cons, rowsTotal_cons]
        subst hr
        by_cases hx : r.counterparty = x <;> (simp [hx]; try ring)
      · rw [if_neg hr, rowsTotal_cons, rowsTotal_cons, ih]
        ring

theorem groupRows_rowsTotal_aux (u : UserId) (es : List Expenditure)
    (acc : List SettlementRow) (x : Option UserId) :
    rowsTotal x (es.foldl
        (fun a e => addRow a (rowKey u e) (rowAmount u e) (mkTxn u e)) acc)
      = rowsTotal x acc
        + ((es.filter (fun e => rowKey u e == x)).map (rowAmount u)).sum := by
  induction es generalizing acc with
  | nil => simp
  | cons e es ih =>
      rw [List.foldl_cons, ih, addRow_rowsTotal]
      by_cases h : rowKey u e = x <;> (simp [List.filter_cons, h]; try ring)

/-- Grouping correctness: each key's total over the `$group` output is the
sum of the per-expenditure contributions carrying that key. -/
theorem groupRows_rowsTotal (u : UserId) (es : List Expenditure)
    (x : Option UserId) :
    rowsTotal x (groupRows u es)
      = ((es.filter (fun e => rowKey u e == x)).map (rowAmount u)).sum := by
  unfold groupRows
  rw [groupRows_rowsTotal_aux]
  simp [rowsTotal]

theorem addRow_keys (rows : List SettlementRow) (k : Option UserId) (a : ℚ)
    (t : Txn) :
    (addRow rows k a t).map (fun r => r.counterparty)
      = if k ∈ rows.map (fun r => r.counterparty) then
          rows.map (fun r => r.counterparty)
        else rows.map (fun r => r.counterparty) ++ [k] := by
  induction rows with
  | nil => simp [addRow]
  | cons r rs ih =>
      unfold addRow
      by_cases hr : r.counterparty = k
      · simp [hr]
      · by_cases hm : k ∈ rs.map (fun r => r.counterparty) <;>
          simp [hr, hm, ih, Ne.symm hr]

/-- The `$group` output has one row per key. -/
theorem groupRows_keys_nodup (u : UserId) (es : List Expenditure) :
    ((groupRows u es).map (fun r => r.counterparty)).Nodup := by
  suffices h : ∀ (l : List Expenditure) (acc : List SettlementRow),
      ((acc.map (fun r => r.counterparty)).Nodup) →
      (((l.foldl (fun a e => addRow a (rowKey u e) (rowAmount u e) (mkTxn u e))
          acc).map (fun r => r.counterparty)).Nodup) by
    exact h es [] (by simp)
  intro l
  induction l with
  | nil => intro acc h; simpa using h
  | cons e es ih =>
      intro acc h
      rw [List.foldl_cons]
      apply ih
      rw [addRow_keys]
      by_cases hm : rowKey u e ∈ acc.map (fun r => r.counterparty)
      · simpa [hm] using h
      · simp [hm, List.nodup_append, h]

theorem rowsTotal_eq_zero_of_not_mem (x : Option UserId)
    (rows : List SettlementRow)
    (h : x ∉ rows.map (fun r => r.counterparty)) : rowsTotal x rows = 0 := by
  induction rows with
  | nil => simp [rowsTotal]
  | cons r rs ih =>
      rw [rowsTotal_cons]
      simp only [List.map_cons, List.mem_cons, not_or] at h
      rw [if_neg (fun hc => h.1 hc.symm), ih h.2, add_zero]

/-- With one row per key, a row's `totalOwed` is exactly its key's total. -/
theorem rowsTotal_of_mem (rows : List SettlementRow)
    (hnd : (rows.map (fun r => r.counterparty)).Nodup)
    (r : SettlementRow) (hr : r ∈ rows) :
    rowsTotal r.counterparty rows = r.totalOwed := by
  induction rows with
  | nil => simp at hr
  | cons x xs ih =>
      simp only [List.map_cons, List.nodup_cons] at hnd
      rw [rowsTotal_cons]
      rcases List.mem_cons.mp hr with rfl | hr2
      · rw [if_pos rfl, rowsTotal_eq_zero_of_not_mem _ _ hnd.1, add_zero]
      · have hne : x.counterparty ≠ r.counterparty := by
          intro hcp
          exact hnd.1 (hcp ▸ List.mem_map_of_mem (fun r => r.counterparty) hr2)
        rw [if_neg hne, zero_add]
        exact ih hnd.2 hr2

/-- Assigning a whitelisted field never changes the split list, the total,
the payer or the settled flag. -/
theorem applyUpdate_frame (e : Expenditure) (k : String) (v : FieldValue)
    (hk : k ∈ allowedUpdates) :
    (applyUpdate e (k, v)).splits = e.splits
    ∧ (applyUpdate e (k, v)).totalAmount = e.totalAmount
    ∧ (applyUpdate e (k, v)).paidBy = e.paidBy
    ∧ (applyUpdate e (k, v)).isSettled = e.isSettled := by
  simp only [allowedUpdates, List.mem_cons, List.not_mem_nil, or_false] at hk
  rcases hk with rfl | rfl | rfl | rfl | rfl | rfl | rfl <;> cases v <;>
    simp [applyUpdate]

/-- Folding whitelisted assignments never changes the four frame fields. -/
theorem foldl_applyUpdate_frame (body : List (String × FieldValue))
    (e : Expenditure) (hall : ∀ kv, kv ∈ body → kv.1 ∈ allowedUpdates) :
    (body.foldl applyUpdate e).splits = e.splits
    ∧ (body.foldl applyUpdate e).totalAmount = e.totalAmount
    ∧ (body.foldl applyUpdate e).paidBy = e.paidBy
    ∧ (body.foldl applyUpdate e).isSettled = e.isSettled := by
  induction body generalizing e with
  | nil => simp
  | cons kv rest ih =>
      rw [List.foldl_cons]
      obtain ⟨h1, h2, h3, h4⟩ :=
        applyUpdate_frame e kv.1 kv.2 (hall kv (List.mem_cons_self kv rest))
      obtain ⟨g1, g2, g3, g4⟩ :=
        ih (applyUpdate e kv) (fun kv2 h => hall kv2 (List.mem_cons_of_mem kv h))
      exact ⟨g1.trans h1, g2.trans h2, g3.trans h3, g4.trans h4⟩

/-- Anatomy of a successful field update: the body passed the whitelist, a
first caller-owned document with the requested id was found, and the
response is that document with the fields assigned. -/
theorem updateExpenditure_ok (store : Store) (caller : UserId) (eid : ExpId)
    (body : List (String × FieldValue)) (e2 : Expenditure) (s2 : Store)
    (h : updateExpenditure store caller eid body = (HandlerResult.ok e2, s2)) :
    ((body.map Prod.fst).all (fun u => allowedUpdates.contains u) = true)
    ∧ ∃ e, e ∈ store ∧ e.id = eid ∧ e.user = caller
        ∧ e2 = body.foldl applyUpdate e := by
  unfold updateExpenditure at h
  by_cases hv : (body.map Prod.fst).all (fun u => allowedUpdates.contains u)
  · refine ⟨hv, ?_⟩
    simp only [hv, if_true, if_pos] at h
    rcases hf : store.find? (fun e => e.id == eid && e.user == caller) with _ | e
    · rw [hf] at h
      exact absurd (congrArg Prod.fst h) (by simp)
    · have hp := List.find?_some hf
      have hmem := List.mem_of_find?_eq_some hf
      simp only [Bool.and_eq_true, beq_iff_eq] at hp
      simp only [hf] at h
      rcases hs : Store.save store (body.foldl applyUpdate e) with err | st
      · rcases err with d | m <;>
          · simp only [hs] at h
            exact absurd (congrArg Prod.fst h) (by simp)
      · simp only [hs] at h
        obtain ⟨h1, _⟩ := Prod.mk.injEq .. ▸ h
        exact ⟨e, hmem, hp.1, hp.2, by injection h1 with h1e; exact h1e.symm⟩
  · simp only [hv] at h
    exact absurd (congrArg Prod.fst h) (by simp)

/-- A field update that does not answer 200 leaves the store untouched. -/
theorem updateExpenditure_store_eq (store : Store) (caller : UserId)
    (eid : ExpId) (body : List (String × FieldValue)) (r : HandlerResult)
    (s2 : Store) (h : updateExpenditure store caller eid body = (r, s2))
    (hne : ∀ x, r ≠ HandlerResult.ok x) : s2 = store := by
  unfold updateExpenditure at h
  by_cases hv : (body.map Prod.fst).all (fun u => allowedUpdates.contains u)
  · simp only [hv, if_true, if_pos] at h
    rcases hf : store.find? (fun e => e.id == eid && e.user == caller) with _ | e
    · simp only [hf] at h
      obtain ⟨_, h2⟩ := Prod.mk.injEq .. ▸ h
      exact h2.symm
    · simp only [hf] at h
      rcases hs : Store.save store (body.foldl applyUpdate e) with err | st
      · rcases err with d | m <;>
          · simp only [hs] at h
            obtain ⟨_, h2⟩ := Prod.mk.injEq .. ▸ h
            exact h2.symm
      · simp only [hs] at h
        obtain ⟨h1, _⟩ := Prod.mk.injEq .. ▸ h
        exact absurd h1 (hne _).symm
  · simp only [hv] at h
    obtain ⟨_, h2⟩ := Prod.mk.injEq .. ▸ h
    exact h2.symm

/-! ### The claims -/

/-- C1: a save (create or update) of a candidate Expenditure with total `T`
and splits `S` is accepted iff `S` is empty or `|sum(S) − T| ≤ 0.01`; when it
is not accepted, both the create handler and the update handler leave the
store exactly as it was — nothing is persisted. -/
theorem C1_split_validator (store : Store) (e : Expenditure) (caller : UserId)
    (fid : ExpId) (b : CreateBody) (eid : ExpId)
    (ubody : List (String × FieldValue)) :
    ((∃ s2, Store.save store e = Except.ok s2) ↔
      (e.splits = [] ∨ |splitsTotal e.splits - e.totalAmount| ≤ 1/100))
    ∧ (∀ r s2, createExpenditure store caller fid b = (r, s2) →
        (∀ x, r ≠ HandlerResult.created x) → s2 = store)
    ∧ (∀ r s2, updateExpenditure store caller eid ubody = (r, s2) →
        (∀ x, r ≠ HandlerResult.ok x) → s2 = store) := by
  refine ⟨(save_ok_iff store e).trans (preSaveHook_ok_iff e), ?_, ?_⟩
  · intro r s2 h hne
    rcases createExpenditure_cases store caller fid b r s2 h with
      ⟨st, _, hr, _⟩ | ⟨_, _, hst⟩
    · exact absurd hr (hne _)
    · exact hst
  · intro r s2 h hne
    exact updateExpenditure_store_eq store caller eid ubody r s2 h hne

/-- C1 witness: instantiated at the one-split test bill and the mismatching
create body; the rejected create demonstrably keeps the empty store. -/
theorem C1_split_validator_witness :
    (createExpenditure [] 1 1 exMismatchBody).2 = [] := by
  have hev : (createExpenditure [] 1 1 exMismatchBody).1
      = HandlerResult.serverError "Split amounts must add up to the total amount" := by
    norm_num [createExpenditure, buildExpenditure, resolvedTotalAmount,
      exMismatchBody, Store.save, preSaveHook, splitsTotal]
  exact (C1_split_validator [] exOneSplitUnpaid 1 1 exMismatchBody 1 []).2.1
    (createExpenditure [] 1 1 exMismatchBody).1
    (createExpenditure [] 1 1 exMismatchBody).2 rfl
    (fun x => by rw [hev]; simp)

/-- C2 counterexample: a successful create whose only supplied split is
already `paid: true` yields a persisted Expenditure with a non-empty,
fully-paid split list but `isSettled = false` — the stated invariant fails
right after a successful operation, because the create path never recomputes
the settled status. -/
theorem C2_counterexample :
    createExpenditure [] 1 1 exAllPaidBody
      = (HandlerResult.created (buildExpenditure 1 1 exAllPaidBody),
          [buildExpenditure 1 1 exAllPaidBody])
    ∧ (buildExpenditure 1 1 exAllPaidBody).splits.all (fun s => s.paid) = true
    ∧ (buildExpenditure 1 1 exAllPaidBody).splits ≠ []
    ∧ (buildExpenditure 1 1 exAllPaidBody).isSettled = false := by
  refine ⟨?_, ?_, ?_, ?_⟩ <;>
    norm_num [createExpenditure, buildExpenditure, resolvedTotalAmount,
      exAllPaidBody, Store.save, preSaveHook, splitsTotal]

/-- C2 amended: after any successful mark-paid operation, the returned
Expenditure has a non-empty split list and its `isSettled` flag is true iff
every split's `paid` flag is true.  (After a successful create this can
fail, as the counterexample shows.) -/
theorem C2_settled_iff_all_paid (store : Store) (caller : UserId) (eid : ExpId)
    (now : Nat) (e2 : Expenditure) (s2 : Store)
    (h : markSplitAsPaid store caller eid now = (HandlerResult.ok e2, s2)) :
    e2.splits ≠ [] ∧ (e2.isSettled = true ↔ e2.splits.all (fun s => s.paid) = true) := by
  obtain ⟨e, _, _, hany, hset, he2⟩ :=
    markSplitAsPaid_ok store caller eid now e2 s2 h
  have hne : e.splits ≠ [] := by
    intro hnil
    rw [hnil] at hany
    simp at hany
  subst he2
  refine ⟨markUserSplit_ne_nil e.splits caller now hne, ?_⟩
  by_cases hall : (markUserSplit e.splits caller now).all (fun s => s.paid) = true <;>
    simp [hall, hset]

/-- C2 witness: user 2 marks the single 100 split of the stored test bill;
the response is settled and fully paid. -/
theorem C2_settled_iff_all_paid_witness :
    exOneSplitMarked.splits ≠ []
    ∧ (exOneSplitMarked.isSettled = true ↔
        exOneSplitMarked.splits.all (fun s => s.paid) = true) :=
  C2_settled_iff_all_paid [exOneSplitUnpaid] 2 1 7 exOneSplitMarked
    [exOneSplitMarked]
    (by norm_num [markSplitAsPaid, exOneSplitUnpaid, exOneSplitMarked,
      markUserSplit, Store.save, preSaveHook, splitsTotal])

/-- C3 counterexample: user 5 has no split in the stored bill, yet the
mark-paid failure message is `Expenditure not found or already settled`, not
the claimed `Split not found for this user` — the `findOne` filter already
requires `'splits.user': caller`, so the dedicated branch never fires. -/
theorem C3_counterexample :
    exTwoSplit.isSettled = false
    ∧ exTwoSplit.splits.any (fun s => s.user == 5) = false
    ∧ markSplitAsPaid [exTwoSplit] 5 1 9
        = (HandlerResult.notFound "Expenditure not found or already settled",
            [exTwoSplit])
    ∧ "Expenditure not found or already settled" ≠ "Split not found for this user" := by
  refine ⟨?_, ?_, ?_, by decide⟩ <;>
    norm_num [exTwoSplit, markSplitAsPaid]

/-- C3 amended: mark-paid succeeds only when the store holds a document with
the requested id carrying a split of the caller and `isSettled = false`;
when no such document exists — unknown id, no split of the caller, or
already settled — it answers 404, with the message `Expenditure not found or
already settled` in every one of those cases (the `Split not found for this
user` branch is unreachable). -/
theorem C3_mark_paid_guard (store : Store) (caller : UserId) (eid : ExpId)
    (now : Nat) :
    (∀ e2 s2, markSplitAsPaid store caller eid now = (HandlerResult.ok e2, s2) →
      ∃ e, e ∈ store ∧ e.id = eid ∧ (∃ s, s ∈ e.splits ∧ s.user = caller)
        ∧ e.isSettled = false)
    ∧ ((¬ ∃ e, e ∈ store ∧ e.id = eid ∧ (∃ s, s ∈ e.splits ∧ s.user = caller)
          ∧ e.isSettled = false) →
        markSplitAsPaid store caller eid now
          = (HandlerResult.notFound "Expenditure not found or already settled", store)
        ∧ (markSplitAsPaid store caller eid now).1.statusCode = 404) := by
  constructor
  · intro e2 s2 h
    obtain ⟨e, hmem, hid, hany, hset, _⟩ :=
      markSplitAsPaid_ok store caller eid now e2 s2 h
    rw [List.any_eq_true] at hany
    obtain ⟨s, hsmem, hsc⟩ := hany
    exact ⟨e, hmem, hid, ⟨s, hsmem, by simpa using hsc⟩, hset⟩
  · intro hno
    have h404 := markSplitAsPaid_notFound store caller eid now
      (fun e he hc => hno ⟨e, he, hc⟩)
    exact ⟨h404, by rw [h404]; rfl⟩

/-- C3 witness: caller 5, who has no split in the stored bill, gets the 404
with the generic message. -/
theorem C3_mark_paid_guard_witness :
    markSplitAsPaid [exTwoSplit] 5 1 9
      = (HandlerResult.notFound "Expenditure not found or already settled",
          [exTwoSplit])
    ∧ (markSplitAsPaid [exTwoSplit] 5 1 9).1.statusCode = 404 :=
  (C3_mark_paid_guard [exTwoSplit] 5 1 9).2
    (by simp [exTwoSplit])

/-- C6 counterexample: user 2's split is already paid with `settledAt = 5`,
but the bill is not yet settled (user 3 is unpaid), so a second mark-paid by
user 2 at time 9 is accepted — not rejected — and overwrites `settledAt`
from 5 to 9. -/
theorem C6_counterexample :
    exTwoSplit.splits.find? (fun s => s.user == 2) = some ⟨2, 60, true, some 5⟩
    ∧ markSplitAsPaid [exTwoSplit] 2 1 9
        = (HandlerResult.ok exTwoSplitRemarked, [exTwoSplitRemarked])
    ∧ exTwoSplitRemarked.splits.find? (fun s => s.user == 2)
        = some ⟨2, 60, true, some 9⟩ := by
  refine ⟨?_, ?_, ?_⟩ <;>
    norm_num [exTwoSplit, exTwoSplitRemarked, markSplitAsPaid, markUserSplit,
      Store.save, preSaveHook, splitsTotal]

/-- C6 amended: every successful mark-paid sets the caller's split to
`paid = true` with `settledAt` equal to the current time — also when the
split was already paid, overwriting the old timestamp; the repeat call is
rejected with the 404 only when the expenditure as a whole is already
settled. -/
theorem C6_mark_paid_settledAt (store : Store) (caller : UserId) (eid : ExpId)
    (now : Nat) :
    (∀ e2 s2, markSplitAsPaid store caller eid now = (HandlerResult.ok e2, s2) →
      ∃ s, e2.splits.find? (fun x => x.user == caller) = some s
        ∧ s.paid = true ∧ s.settledAt = some now)
    ∧ ((∀ e, e ∈ store → e.id = eid → e.isSettled = true) →
        markSplitAsPaid store caller eid now
          = (HandlerResult.notFound "Expenditure not found or already settled",
              store)) := by
  constructor
  · intro e2 s2 h
    obtain ⟨e, _, _, hany, _, he2⟩ :=
      markSplitAsPaid_ok store caller eid now e2 s2 h
    obtain ⟨s0, _, hfind⟩ := markUserSplit_find e.splits caller now hany
    refine ⟨{ s0 with paid := true, settledAt := some now }, ?_, rfl, rfl⟩
    rw [he2]
    exact hfind
  · intro hsettled
    refine markSplitAsPaid_notFound store caller eid now ?_
    rintro e he ⟨hid, _, hset⟩
    rw [hsettled e he hid] at hset
    exact absurd hset (by simp)

/-- C6 witness: the re-mark at time 9 indeed leaves user 2's split paid with
the overwritten timestamp 9. -/
theorem C6_mark_paid_settledAt_witness :
    ∃ s, exTwoSplitRemarked.splits.find? (fun x => x.user == 2) = some s
      ∧ s.paid = true ∧ s.settledAt = some 9 :=
  (C6_mark_paid_settledAt [exTwoSplit] 2 1 9).1 exTwoSplitRemarked
    [exTwoSplitRemarked]
    (by norm_num [exTwoSplit, exTwoSplitRemarked, markSplitAsPaid,
      markUserSplit, Store.save, preSaveHook, splitsTotal])

/-- C7: a POST whose splits sum to 70 against a total of 100 is refused
before persistence (the store stays empty), but the pre-save hook raises a
plain `Error`, not a mongoose `ValidationError`, so the create handler's 400
branch is skipped and the response is a 500 from the generic error handler —
not the 400 with field-level details the spec promises. -/
theorem C7_split_sum_violation_is_500 :
    createExpenditure [] 1 1 exMismatchBody
      = (HandlerResult.serverError "Split amounts must add up to the total amount",
          [])
    ∧ (createExpenditure [] 1 1 exMismatchBody).1.statusCode = 500
    ∧ (createExpenditure [] 1 1 exMismatchBody).1.statusCode ≠ 400 := by
  refine ⟨?_, ?_, ?_⟩ <;>
    norm_num [createExpenditure, buildExpenditure, resolvedTotalAmount,
      exMismatchBody, Store.save, preSaveHook, splitsTotal,
      HandlerResult.statusCode]

/-- C8 counterexample: a create whose split sum misses the total by exactly
0.01 (splits sum 0 against a total of 0.01) succeeds — the hook only rejects
strictly greater deviations — contradicting `mismatch ≥ 0.01 always fails`. -/
theorem C8_counterexample :
    createExpenditure [] 1 1 exBoundaryBody
      = (HandlerResult.created (buildExpenditure 1 1 exBoundaryBody),
          [buildExpenditure 1 1 exBoundaryBody])
    ∧ |splitsTotal (buildExpenditure 1 1 exBoundaryBody).splits
        - (buildExpenditure 1 1 exBoundaryBody).totalAmount| = 1/100 := by
  constructor <;>
    norm_num [createExpenditure, buildExpenditure, resolvedTotalAmount,
      exBoundaryBody, Store.save, preSaveHook, splitsTotal, abs_of_nonneg]

/-- C8 amended: a create with a non-empty split list succeeds iff the
deviation is at most 0.01 — it always fails exactly when the mismatch
strictly exceeds 0.01, and a mismatch of exactly 0.01 is accepted. -/
theorem C8_create_accept_iff (store : Store) (caller : UserId) (fid : ExpId)
    (b : CreateBody) (ss : List Split) (hs : b.splits = some ss)
    (hne : ss ≠ []) :
    (∃ e s2, createExpenditure store caller fid b = (HandlerResult.created e, s2))
      ↔ |splitsTotal ss - resolvedTotalAmount b| ≤ 1/100 := by
  have hsp : (buildExpenditure caller fid b).splits = ss := by
    simp [buildExpenditure, hs]
  constructor
  · rintro ⟨e, s2, h⟩
    rcases createExpenditure_cases store caller fid b _ _ h with
      ⟨st, hok, _, _⟩ | ⟨_, hnc, _⟩
    · have := (save_ok_iff store (buildExpenditure caller fid b)).mp ⟨st, hok⟩
      rcases (preSaveHook_ok_iff _).mp this with hnil | hle
      · exact absurd (hsp ▸ hnil) hne
      · simpa [buildExpenditure, hs] using hle
    · exact absurd rfl (hnc e)
  · intro hle
    have hok : preSaveHook (buildExpenditure caller fid b) = Except.ok () :=
      (preSaveHook_ok_iff _).mpr (Or.inr (by simpa [buildExpenditure, hs] using hle))
    obtain ⟨st, hst⟩ := (save_ok_iff store (buildExpenditure caller fid b)).mpr hok
    refine ⟨buildExpenditure caller fid b, st, ?_⟩
    simp only [createExpenditure, hst]

/-- C8 witness: the boundary body, whose mismatch is exactly 0.01, is
accepted by the create path. -/
theorem C8_create_accept_iff_witness :
    ∃ e s2, createExpenditure [] 1 1 exBoundaryBody
      = (HandlerResult.created e, s2) :=
  (C8_create_accept_iff [] 1 1 exBoundaryBody [⟨2, 0, false, none⟩] rfl
      (by simp)).mpr
    (by norm_num [exBoundaryBody, resolvedTotalAmount, splitsTotal, abs_le])

/-- C10 counterexample: `createExpenditure` spreads the whole request body
into `Expenditure.create`, so a POST body carrying `isSettled: true` creates
an Expenditure whose `isSettled` flag is true — the claim's `for every
successful POST` quantification fails. -/
theorem C10_counterexample :
    createExpenditure [] 1 1 exSettledBody
      = (HandlerResult.created (buildExpenditure 1 1 exSettledBody),
          [buildExpenditure 1 1 exSettledBody])
    ∧ (buildExpenditure 1 1 exSettledBody).isSettled = true := by
  constructor <;>
    norm_num [createExpenditure, buildExpenditure, resolvedTotalAmount,
      exSettledBody, Store.save, preSaveHook, splitsTotal]

/-- C10 amended: after a successful POST whose body does not itself carry an
`isSettled` key, the created Expenditure's `isSettled` flag is false — the
schema default — even when every supplied split already has `paid: true`; no
settled-status recomputation occurs on the create path. -/
theorem C10_create_isSettled_false (store : Store) (caller : UserId)
    (fid : ExpId) (b : CreateBody) (hb : b.isSettled = none) :
    ∀ e s2, createExpenditure store caller fid b = (HandlerResult.created e, s2) →
      e.isSettled = false := by
  intro e s2 h
  rcases createExpenditure_cases store caller fid b _ _ h with
    ⟨st, _, hr, _⟩ | ⟨_, hnc, _⟩
  · have he : e = buildExpenditure caller fid b := by
      injection hr with hre
    rw [he]
    simp [buildExpenditure, hb]
  · exact absurd rfl (hnc e)

/-- C10 witness: the all-paid-splits body (no `isSettled` key) creates an
unsettled Expenditure. -/
theorem C10_create_isSettled_false_witness :
    (buildExpenditure 1 1 exAllPaidBody).isSettled = false :=
  C10_create_isSettled_false [] 1 1 exAllPaidBody rfl
    (buildExpenditure 1 1 exAllPaidBody) [buildExpenditure 1 1 exAllPaidBody]
    (by norm_num [createExpenditure, buildExpenditure, resolvedTotalAmount,
      exAllPaidBody, Store.save, preSaveHook, splitsTotal])

/-- C4 counterexample: user 2's only split in the matched unsettled bill is
already paid, yet the aggregator still reports `2 owes 1` = 60 — the payer
branch takes `$arrayElemAt ['$splits.amount', 0]` with no condition on the
split's `paid` flag, so paid splits do contribute, contradicting the claim
that only unpaid splits of other participants are recorded. -/
theorem C4_counterexample :
    exPaidSplit.paidBy = 1
    ∧ exPaidSplit.isSettled = false
    ∧ exPaidSplit.splits.all (fun s => s.paid) = true
    ∧ (getSettlementSummary [exPaidSplit] 1).settlements
        = [⟨some 2, 60, [⟨1, "dinner", 60, 0⟩]⟩]
    ∧ (getSettlementSummary [exPaidSplit] 1).totalToReceive = 60 := by
  refine ⟨rfl, rfl, ?_, ?_, ?_⟩ <;>
    norm_num [getSettlementSummary, groupRows, addRow, rowKey, rowAmount,
      mkTxn, settlementMatch, exPaidSplit, List.insertionSort,
      List.orderedInsert]

/-- C4 amended: for every unsettled expenditure where U is the payer, the
computation records — attributed to the *first* split's user — the first
split's amount, regardless of that split's `paid` flag; splits beyond the
first contribute nothing; and each output row's net is the sum of these
per-expenditure contributions over the matched expenditures with that group
key. -/
theorem C4_payer_first_split (store : Store) (u : UserId) :
    (∀ r, r ∈ (getSettlementSummary store u).settlements →
      r.totalOwed = (((store.filter (settlementMatch u)).filter
          (fun e => rowKey u e == r.counterparty)).map (rowAmount u)).sum)
    ∧ (∀ e : Expenditure, e.paidBy = u →
        rowKey u e = (e.splits.head?).map (fun s => s.user)
        ∧ rowAmount u e = ((e.splits.head?).map (fun s => s.amount)).getD 0) := by
  constructor
  · intro r hr
    have hmem : r ∈ groupRows u (store.filter (settlementMatch u)) := by
      have hm := hr
      simp only [getSettlementSummary] at hm
      rw [List.mem_insertionSort] at hm
      exact (List.mem_filter.mp hm).1
    have hnd := groupRows_keys_nodup u (store.filter (settlementMatch u))
    have heq := rowsTotal_of_mem _ hnd r hmem
    rw [← heq, groupRows_rowsTotal]
  · intro e he
    constructor <;> simp [rowKey, rowAmount, he]

/-- C4 witness: in the paid-split store the single output row's 60 equals
the contribution sum of the matched expenditures grouped under user 2. -/
theorem C4_payer_first_split_witness :
    (⟨some 2, 60, [⟨1, "dinner", 60, 0⟩]⟩ : SettlementRow).totalOwed
      = ((([exPaidSplit].filter (settlementMatch 1)).filter
          (fun e => rowKey 1 e
            == (⟨some 2, 60, [⟨1, "dinner", 60, 0⟩]⟩ : SettlementRow).counterparty)).map
          (rowAmount 1)).sum :=
  (C4_payer_first_split [exPaidSplit] 1).1 _
    (by norm_num [getSettlementSummary, groupRows, addRow, rowKey, rowAmount,
      mkTxn, settlementMatch, exPaidSplit, List.insertionSort,
      List.orderedInsert])

/-- C5: the settlement output contains no counterparty with a zero net, is
sorted descending by net amount, and the two scalar summaries are the sum of
the positive nets and the sum of the absolute values of the negative nets. -/
theorem C5_settlement_shape (store : Store) (u : UserId) :
    (∀ r, r ∈ (getSettlementSummary store u).settlements → r.totalOwed ≠ 0)
    ∧ List.Sorted rowGe (getSettlementSummary store u).settlements
    ∧ (getSettlementSummary store u).totalToReceive
        = (((getSettlementSummary store u).settlements.filter
            (fun r => decide (0 < r.totalOwed))).map (fun r => r.totalOwed)).sum
    ∧ (getSettlementSummary store u).totalToPay
        = (((getSettlementSummary store u).settlements.filter
            (fun r => decide (r.totalOwed < 0))).map (fun r => |r.totalOwed|)).sum := by
  refine ⟨?_, ?_, rfl, rfl⟩
  · intro r hr
    simp only [getSettlementSummary] at hr
    rw [List.mem_insertionSort] at hr
    have hp := (List.mem_filter.mp hr).2
    simpa using hp
  · simp only [getSettlementSummary]
    exact List.sorted_insertionSort rowGe _

/-- C5 witness: the single row of the paid-split store has a non-zero net. -/
theorem C5_settlement_shape_witness :
    (⟨some 2, 60, [⟨1, "dinner", 60, 0⟩]⟩ : SettlementRow).totalOwed ≠ 0 :=
  (C5_settlement_shape [exPaidSplit] 1).1 _
    (by norm_num [getSettlementSummary, groupRows, addRow, rowKey, rowAmount,
      mkTxn, settlementMatch, exPaidSplit, List.insertionSort,
      List.orderedInsert])

/-- C9: a PATCH body with any key outside the whitelist
`{amount, category, description, date, paymentMethod, tags, location}` is
rejected with the 400 `Invalid updates` and the store is unchanged; and
every successful field update leaves the target's `splits`, `totalAmount`,
`paidBy` and `isSettled` exactly as stored — those fields can never be
modified through this path. -/
theorem C9_update_whitelist (store : Store) (caller : UserId) (eid : ExpId)
    (body : List (String × FieldValue)) :
    ((∃ k, k ∈ body.map Prod.fst ∧ k ∉ allowedUpdates) →
      updateExpenditure store caller eid body
        = (HandlerResult.invalidUpdates, store)
      ∧ HandlerResult.invalidUpdates.statusCode = 400)
    ∧ (∀ e2 s2, updateExpenditure store caller eid body = (HandlerResult.ok e2, s2) →
        ∃ e, e ∈ store ∧ e.id = eid ∧ e.user = caller
          ∧ e2.splits = e.splits ∧ e2.totalAmount = e.totalAmount
          ∧ e2.paidBy = e.paidBy ∧ e2.isSettled = e.isSettled) := by
  constructor
  · rintro ⟨k, hk, hnk⟩
    have hv : (body.map Prod.fst).all (fun u => allowedUpdates.contains u)
        = false := by
      rw [Bool.eq_false_iff]
      intro hall
      have hc := List.all_eq_true.mp hall k hk
      exact hnk (by simpa using hc)
    refine ⟨?_, rfl⟩
    simp only [updateExpenditure]
    rw [hv]
    simp
  · intro e2 s2 h
    obtain ⟨hv, e, hmem, hid, huser, he2⟩ :=
      updateExpenditure_ok store caller eid body e2 s2 h
    have hall : ∀ kv, kv ∈ body → kv.1 ∈ allowedUpdates := by
      intro kv hkv
      have hc := List.all_eq_true.mp hv kv.1 (List.mem_map_of_mem Prod.fst hkv)
      simpa using hc
    obtain ⟨f1, f2, f3, f4⟩ := foldl_applyUpdate_frame body e hall
    rw [he2]
    exact ⟨e, hmem, hid, huser, f1, f2, f3, f4⟩

/-- C9 witness: a body trying to set `splits` is rejected and the store of
one bill is unchanged. -/
theorem C9_update_whitelist_witness :
    updateExpenditure [exTwoSplit] 1 1 [("splits", FieldValue.splitList [])]
      = (HandlerResult.invalidUpdates, [exTwoSplit])
    ∧ HandlerResult.invalidUpdates.statusCode = 400 :=
  (C9_update_whitelist [exTwoSplit] 1 1 [("splits", FieldValue.splitList [])]).1
    ⟨"splits", by simp, by simp [allowedUpdates]⟩

end Montage
